import Mathlib

/-!
Verification of `convert_image_to_icns_file.py` (thedzy/convert_image_to_icns_file).

Shallow embedding of the core pipeline of `main()`:
  * geometry normalization (the pad branch, lines 74-87, and the crop branch,
    lines 89-108),
  * the multiscale render loop over the fixed `icon_files` catalog
    (lines 112-128),
  * the packaging tail over the external `iconutil` tool (lines 131-155).

Images are modelled as a width, a height and a total pixel function; PIL
primitives used by the script (`Image.new`, `paste`, `crop`, `resize`) are
modelled by their effect on dimensions and pixel placement.  `Image.crop`
receives the box as Python floats in the script; Pillow converts each box
coordinate with `int(round(c))`, i.e. Python's round-half-to-even, which is
modelled exactly (`pyRoundHalf`).  `resize` returns an image of exactly the
requested dimensions for every resampling filter; its pixel content is
modelled by nearest sampling, since no property below depends on the
resampled pixel values.
-/

set_option autoImplicit false

/-- An RGBA pixel; the script converts the source with `image.convert('RGBA')`. -/
structure RGBA where
  r : Nat
  g : Nat
  b : Nat
  a : Nat
deriving DecidableEq

/-- An in-memory image: dimensions plus a total pixel function.
Pixels outside `width × height` are never consulted by the claims. -/
structure Img where
  width : Nat
  height : Nat
  px : Nat → Nat → RGBA

/-- The fully transparent pixel, the fill of `Image.new('RGBA', (n, n), 0)`. -/
def transparent : RGBA := ⟨0, 0, 0, 0⟩

/-- `Image.new('RGBA', (w, h), 0)`: a fully transparent canvas. -/
def newRGBA (w h : Nat) : Img := ⟨w, h, fun _ _ => transparent⟩

/-- `canvas.paste(src, (ox, oy))`: the source's top-left corner lands at
`(ox, oy)`; outside the pasted region the canvas is unchanged. -/
def paste (canvas src : Img) (ox oy : Nat) : Img :=
  ⟨canvas.width, canvas.height, fun x y =>
    if ox ≤ x ∧ x < ox + src.width ∧ oy ≤ y ∧ y < oy + src.height then
      src.px (x - ox) (y - oy)
    else canvas.px x y⟩

/-- `image.crop((x0, y0, x1, y1))` after Pillow has converted the box to
integers: the result is `(x1-x0) × (y1-y0)` with pixels shifted by `(x0, y0)`. -/
def cropBox (image : Img) (x0 y0 x1 y1 : Nat) : Img :=
  ⟨x1 - x0, y1 - y0, fun x y => image.px (x0 + x) (y0 + y)⟩

/-- `image.resize((w, h), method)`: an image of exactly the requested size,
for every resampling filter; pixel content modelled by nearest sampling. -/
def resize (image : Img) (w h : Nat) (method : Nat) : Img :=
  ⟨w, h, fun x y => image.px (x * image.width / w) (y * image.height / h)⟩

/-- Python `round(n / 2)` for a natural `n` (the box coordinates the script
passes to `crop` are exact halves): round half to even, as Pillow's
`_crop` does via `map(int, map(round, box))`. -/
def pyRoundHalf (n : Nat) : Nat :=
  if n % 2 = 0 then n / 2
  else if (n / 2) % 2 = 0 then n / 2 else n / 2 + 1

/-- Lines 74-87: pad the image to a transparent square of the larger side when
it is non-square and `--keep_aspect` was given.  `int((w - h) / 2)` on
non-negative values is floor division, hence `Nat` division here. -/
def padStep (image : Img) (keep_aspect : Bool) : Img :=
  if image.width ≠ image.height ∧ keep_aspect = true then
    if image.width > image.height then
      paste (newRGBA (max image.width image.height) (max image.width image.height))
        image 0 ((image.width - image.height) / 2)
    else
      paste (newRGBA (max image.width image.height) (max image.width image.height))
        image ((image.height - image.width) / 2) 0
  else image

/-- Lines 89-108: centered crop to the smaller side when the image is
non-square and `--crop` was given.  The script passes the box with Python
float division `(h - w) / 2`; Pillow rounds each coordinate half-to-even,
so the box `(0, (h-w)/2, m, (h-w)/2 + m)` becomes
`(0, pyRoundHalf (h-w), m, pyRoundHalf (h-w+2*m))`, and symmetrically. -/
def cropStep (image : Img) (crop : Bool) : Img :=
  if image.width ≠ image.height ∧ crop = true then
    if image.width = min image.width image.height then
      cropBox image 0 (pyRoundHalf (image.height - image.width))
        (min image.width image.height)
        (pyRoundHalf (image.height - image.width + 2 * min image.width image.height))
    else
      cropBox image (pyRoundHalf (image.width - image.height)) 0
        (pyRoundHalf (image.width - image.height + 2 * min image.width image.height))
        (min image.width image.height)
  else image

/-- The geometry normalizer: the pad branch runs first, then the crop branch
re-reads the (possibly padded) dimensions. -/
def normalizeImage (image : Img) (keep_aspect crop : Bool) : Img :=
  cropStep (padStep image keep_aspect) crop

/-- Horizontal paste offset of the pad branch: 0 when the width is the longer
side, `(h - w) / 2` otherwise. -/
def padOffX (image : Img) : Nat :=
  if image.width > image.height then 0 else (image.height - image.width) / 2

/-- Vertical paste offset of the pad branch: `(w - h) / 2` when the width is
the longer side, 0 otherwise. -/
def padOffY (image : Img) : Nat :=
  if image.width > image.height then (image.width - image.height) / 2 else 0

/-- One `icon_files` entry `(name, size, scale)` of lines 46-58. -/
structure IconSpec where
  name : String
  size : Nat
  multiplier : Nat
deriving DecidableEq

/-- The fixed 11-entry catalog `icon_files` (lines 46-58). -/
def icon_files : List IconSpec :=
  [⟨"icon_16x16.png", 16, 1⟩,
   ⟨"icon_16x16@2x.png", 16, 2⟩,
   ⟨"icon_32x32.png", 32, 1⟩,
   ⟨"icon_32x32@2x.png", 32, 2⟩,
   ⟨"icon_128x128.png", 128, 1⟩,
   ⟨"icon_128x128@2x.png", 128, 2⟩,
   ⟨"icon_256x256.png", 256, 1⟩,
   ⟨"icon_256x256@2x.png", 256, 2⟩,
   ⟨"icon_512x512.png", 512, 1⟩,
   ⟨"icon_512x512@2x.png", 512, 2⟩,
   ⟨"icon_1024x1024.png", 1024, 1⟩]

/-- `resize_methods.get(options.method, 0)` (lines 60-66, 127). -/
def resize_methods (m : String) : Nat :=
  if m = "NEAREST" then 0
  else if m = "ANTIALIAS" then 1
  else if m = "LANCZOS" then 1
  else if m = "BILINEAR" then 2
  else if m = "BICUBIC" then 3
  else 0

/-- The render loop of lines 112-128: walk the catalog keeping the running
`last_size`; an entry is rendered when `image_width > last_size or all_sizes`,
and only then is `last_size` set to the entry's base `size`. -/
def renderGo (width : Nat) (all_sizes : Bool) : List IconSpec → Nat → List IconSpec
  | [], _ => []
  | s :: rest, last =>
    if width > last ∨ all_sizes = true then
      s :: renderGo width all_sizes rest s.size
    else
      renderGo width all_sizes rest last

/-- The files written into the staging `.iconset` directory: for each rendered
spec, a copy of the image resized to `(size * multiplier, size * multiplier)`
saved under the spec's name (lines 113-128). -/
def renderFiles (image : Img) (method : String) (all_sizes : Bool) :
    List (String × Img) :=
  (renderGo image.width all_sizes icon_files 0).map fun s =>
    (s.name,
     resize image (s.size * s.multiplier) (s.size * s.multiplier)
       (resize_methods method))

/-- A spec is rendered for source width `w` (with `all_sizes` off). -/
def rendered (w : Nat) (s : IconSpec) : Prop :=
  s ∈ renderGo w false icon_files 0

/-- The catalog prefix up to and including the first entry whose base size is
at least `w`; used to characterize the skip policy. -/
def takeThrough (w : Nat) : List IconSpec → List IconSpec
  | [] => []
  | s :: rest => if w ≤ s.size then [s] else s :: takeThrough w rest

/-- Environment of the packaging tail (lines 131-155): whether
`options.binary.is_file()`, whether `subprocess.run` raises `ValueError`, the
tool's exit code when it runs, and whether a file already exists at
`options.outfile`. -/
structure ToolEnv where
  binary_is_file : Bool
  tool_raises : Bool
  returncode : Int
  outfile_pre : Bool

/-- Observable outcome of the packaging tail: the value returned by `main`,
whether `temp_file.rename(options.outfile)` ran, whether a file exists at
`options.outfile` afterwards, whether the tool was invoked, and whether the
missing-tool message was printed. -/
structure PackOutcome where
  ret : Int
  renamed : Bool
  outfile_after : Bool
  invoked : Bool
  reported_missing : Bool

/-- Lines 131-155: if the binary exists, first `options.outfile.unlink
(missing_ok=True)`, then run the tool; exit 0 renames the temp `.icns` onto
the outfile, a `ValueError` returns 2, a non-zero exit code is returned
unchanged with no rename.  If the binary is absent, print `Please install
...` and fall through to `return 0`. -/
def packageAndFinish (env : ToolEnv) : PackOutcome :=
  if env.binary_is_file = true then
    if env.tool_raises = true then
      ⟨2, false, false, true, false⟩
    else if env.returncode = 0 then
      ⟨0, true, true, true, false⟩
    else
      ⟨env.returncode, false, false, true, false⟩
  else
    ⟨0, false, env.outfile_pre, false, true⟩

/-- A 64×64 opaque test image. -/
def s64 : Img := ⟨64, 64, fun _ _ => ⟨0, 0, 0, 255⟩⟩

/-- A 2×2 square test image with distinguishable pixels. -/
def sq2 : Img := ⟨2, 2, fun x y => ⟨x, y, 3, 255⟩⟩

/-- A 1×3 (taller than wide) test image with distinguishable pixels. -/
def img13 : Img := ⟨1, 3, fun x y => ⟨x, y, 7, 255⟩⟩

/-- A 3×6 test image: both the shorter side and the side difference are odd,
which exposes the fractional crop box. -/
def img36 : Img := ⟨3, 6, fun x y => ⟨x, y, 0, 255⟩⟩

/-! ## Helper lemmas about the render loop -/

/-- With `all_sizes` off and a zero-width image, nothing is rendered. -/
lemma renderGo_zero : renderGo 0 false icon_files 0 = [] := by decide

/-- Interval `1 ≤ w ≤ 16`: only `icon_16x16.png` is rendered. -/
lemma renderGo_le16 (w : Nat) (h1 : 1 ≤ w) (h2 : w ≤ 16) :
    renderGo w false icon_files 0 = List.take 1 icon_files := by
  have a0 : 0 < w := h1
  have a1 : ¬ 16 < w := by omega
  simp [renderGo, icon_files, a0, a1]

/-- Interval `17 ≤ w ≤ 32`: the 16 family plus `icon_32x32.png`. -/
lemma renderGo_le32 (w : Nat) (h1 : 17 ≤ w) (h2 : w ≤ 32) :
    renderGo w false icon_files 0 = List.take 3 icon_files := by
  have a0 : 0 < w := by omega
  have a1 : 16 < w := by omega
  have a2 : ¬ 32 < w := by omega
  simp [renderGo, icon_files, a0, a1, a2]

/-- Interval `33 ≤ w ≤ 128`: the 16 and 32 families plus `icon_128x128.png`. -/
lemma renderGo_le128 (w : Nat) (h1 : 33 ≤ w) (h2 : w ≤ 128) :
    renderGo w false icon_files 0 = List.take 5 icon_files := by
  have a0 : 0 < w := by omega
  have a1 : 16 < w := by omega
  have a2 : 32 < w := by omega
  have a3 : ¬ 128 < w := by omega
  simp [renderGo, icon_files, a0, a1, a2, a3]

/-- Interval `129 ≤ w ≤ 256`: seven entries, through `icon_256x256.png`. -/
lemma renderGo_le256 (w : Nat) (h1 : 129 ≤ w) (h2 : w ≤ 256) :
    renderGo w false icon_files 0 = List.take 7 icon_files := by
  have a0 : 0 < w := by omega
  have a1 : 16 < w := by omega
  have a2 : 32 < w := by omega
  have a3 : 128 < w := by omega
  have a4 : ¬ 256 < w := by omega
  simp [renderGo, icon_files, a0, a1, a2, a3, a4]

/-- Interval `257 ≤ w ≤ 512`: nine entries, through `icon_512x512.png`. -/
lemma renderGo_le512 (w : Nat) (h1 : 257 ≤ w) (h2 : w ≤ 512) :
    renderGo w false icon_files 0 = List.take 9 icon_files := by
  have a0 : 0 < w := by omega
  have a1 : 16 < w := by omega
  have a2 : 32 < w := by omega
  have a3 : 128 < w := by omega
  have a4 : 256 < w := by omega
  have a5 : ¬ 512 < w := by omega
  simp [renderGo, icon_files, a0, a1, a2, a3, a4, a5]

/-- Interval `513 ≤ w`: the whole catalog is rendered. -/
lemma renderGo_gt512 (w : Nat) (h1 : 513 ≤ w) :
    renderGo w false icon_files 0 = icon_files := by
  have a0 : 0 < w := by omega
  have a1 : 16 < w := by omega
  have a2 : 32 < w := by omega
  have a3 : 128 < w := by omega
  have a4 : 256 < w := by omega
  have a5 : 512 < w := by omega
  simp [renderGo, icon_files, a0, a1, a2, a3, a4, a5]

/-- The skip policy characterized: for a positive source width the rendered
list is the catalog prefix through the first entry whose base size is `≥ w`. -/
lemma renderGo_char (w : Nat) (hw : 1 ≤ w) :
    renderGo w false icon_files 0 = takeThrough w icon_files := by
  rcases le_or_lt w 16 with h | h
  · rw [renderGo_le16 w hw h]
    have b1 : w ≤ 16 := h
    simp [takeThrough, icon_files, b1]
  rcases le_or_lt w 32 with h' | h'
  · rw [renderGo_le32 w (by omega) h']
    have b1 : ¬ w ≤ 16 := by omega
    have b2 : w ≤ 32 := h'
    simp [takeThrough, icon_files, b1, b2]
  rcases le_or_lt w 128 with h2 | h2
  · rw [renderGo_le128 w (by omega) h2]
    have b1 : ¬ w ≤ 16 := by omega
    have b2 : ¬ w ≤ 32 := by omega
    have b3 : w ≤ 128 := h2
    simp [takeThrough, icon_files, b1, b2, b3]
  rcases le_or_lt w 256 with h3 | h3
  · rw [renderGo_le256 w (by omega) h3]
    have b1 : ¬ w ≤ 16 := by omega
    have b2 : ¬ w ≤ 32 := by omega
    have b3 : ¬ w ≤ 128 := by omega
    have b4 : w ≤ 256 := h3
    simp [takeThrough, icon_files, b1, b2, b3, b4]
  rcases le_or_lt w 512 with h4 | h4
  · rw [renderGo_le512 w (by omega) h4]
    have b1 : ¬ w ≤ 16 := by omega
    have b2 : ¬ w ≤ 32 := by omega
    have b3 : ¬ w ≤ 128 := by omega
    have b4 : ¬ w ≤ 256 := by omega
    have b5 : w ≤ 512 := h4
    simp [takeThrough, icon_files, b1, b2, b3, b4, b5]
  · rw [renderGo_gt512 w (by omega)]
    have b1 : ¬ w ≤ 16 := by omega
    have b2 : ¬ w ≤ 32 := by omega
    have b3 : ¬ w ≤ 128 := by omega
    have b4 : ¬ w ≤ 256 := by omega
    have b5 : ¬ w ≤ 512 := by omega
    rcases le_or_lt w 1024 with h5 | h5
    · have b6 : w ≤ 1024 := h5
      simp [takeThrough, icon_files, b1, b2, b3, b4, b5, b6]
    · have b6 : ¬ w ≤ 1024 := by omega
      simp [takeThrough, icon_files, b1, b2, b3, b4, b5, b6]

/-- With `all_sizes` on the condition of the loop is always true, so every
catalog entry is rendered, whatever `last_size` is. -/
lemma renderGo_all (w : Nat) :
    ∀ (l : List IconSpec) (last : Nat), renderGo w true l last = l
  | [], _ => rfl
  | s :: rest, last => by
    simp [renderGo, renderGo_all w rest s.size]

/-- Every rendered spec comes from the catalog walked by the loop. -/
lemma renderGo_mem (w : Nat) (a : Bool) :
    ∀ (l : List IconSpec) (last : Nat) (s : IconSpec),
      s ∈ renderGo w a l last → s ∈ l := by
  intro l
  induction l with
  | nil => intro last s h; simp [renderGo] at h
  | cons x rest ih =>
    intro last s h
    simp only [renderGo] at h
    split at h
    · rcases List.mem_cons.mp h with rfl | h'
      · exact List.mem_cons_self _ _
      · exact List.mem_cons_of_mem x (ih _ _ h')
    · exact List.mem_cons_of_mem x (ih _ _ h)

/-- `takeThrough` always yields an initial segment of its input. -/
lemma takeThrough_is_take (w : Nat) :
    ∀ l : List IconSpec, ∃ n, takeThrough w l = List.take n l
  | [] => ⟨0, rfl⟩
  | s :: rest => by
    by_cases h : w ≤ s.size
    · exact ⟨1, by simp [takeThrough, h]⟩
    · obtain ⟨n, hn⟩ := takeThrough_is_take w rest
      exact ⟨n + 1, by simp [takeThrough, h, hn]⟩

/-! ## Claim theorems -/

/-- C1 counterexample: the claim says a 64×64 source renders no catalog entry
with base size 128 or larger, but the loop compares the width against the
previously rendered base size (32), so `icon_128x128.png` is rendered. -/
theorem skip_policy_cx :
    (⟨"icon_128x128.png", 128, 1⟩ : IconSpec) ∈ renderGo 64 false icon_files 0 := by
  decide

/-- C1 (amended): with `all_sizes` off and a positive source width, the
rendered list is the catalog prefix up to and including the FIRST entry whose
base size is at least the width; concretely a 64×64 source renders the 16 and
32 families plus `icon_128x128.png`, and nothing after it. -/
theorem skip_policy (w : Nat) (hw : 1 ≤ w) :
    renderGo w false icon_files 0 = takeThrough w icon_files ∧
    renderGo 64 false icon_files 0 =
      [⟨"icon_16x16.png", 16, 1⟩, ⟨"icon_16x16@2x.png", 16, 2⟩,
       ⟨"icon_32x32.png", 32, 1⟩, ⟨"icon_32x32@2x.png", 32, 2⟩,
       ⟨"icon_128x128.png", 128, 1⟩] :=
  ⟨renderGo_char w hw, by decide⟩

/-- Witness for C1's amended theorem at width 64. -/
theorem skip_policy_witness :
    renderGo 64 false icon_files 0 = takeThrough 64 icon_files :=
  (skip_policy 64 (by decide)).1

/-- C2 counterexample: for a source of width 20, `icon_32x32.png` is rendered
(20 > 16) but its @2x sibling is skipped (20 ≤ 32), so an accepted 1x entry
does not drag its @2x pair along. -/
theorem retina_pair_cx :
    (⟨"icon_32x32.png", 32, 1⟩ : IconSpec) ∈ renderGo 20 false icon_files 0 ∧
    (⟨"icon_32x32@2x.png", 32, 2⟩ : IconSpec) ∉ renderGo 20 false icon_files 0 := by
  decide

/-- C2 (amended): with `all_sizes` off, the @2x entry of a base size is
rendered iff its 1x sibling is rendered AND the source width strictly exceeds
that base size; when the width lies in `(previous base, base]` the 1x entry is
rendered alone. -/
theorem retina_pair (w : Nat) :
    (rendered w ⟨"icon_16x16@2x.png", 16, 2⟩ ↔
      rendered w ⟨"icon_16x16.png", 16, 1⟩ ∧ 16 < w) ∧
    (rendered w ⟨"icon_32x32@2x.png", 32, 2⟩ ↔
      rendered w ⟨"icon_32x32.png", 32, 1⟩ ∧ 32 < w) ∧
    (rendered w ⟨"icon_128x128@2x.png", 128, 2⟩ ↔
      rendered w ⟨"icon_128x128.png", 128, 1⟩ ∧ 128 < w) ∧
    (rendered w ⟨"icon_256x256@2x.png", 256, 2⟩ ↔
      rendered w ⟨"icon_256x256.png", 256, 1⟩ ∧ 256 < w) ∧
    (rendered w ⟨"icon_512x512@2x.png", 512, 2⟩ ↔
      rendered w ⟨"icon_512x512.png", 512, 1⟩ ∧ 512 < w) := by
  rcases Nat.lt_or_ge w 1 with h0 | h1
  · have hw0 : w = 0 := by omega
    subst hw0
    refine ⟨?_, ?_, ?_, ?_, ?_⟩ <;> simp only [rendered, renderGo_zero] <;>
      exact iff_of_false (by decide) (fun hh => absurd hh.2 (by omega))
  rcases le_or_lt w 16 with h2 | h2
  · have hL := renderGo_le16 w h1 h2
    refine ⟨?_, ?_, ?_, ?_, ?_⟩ <;> simp only [rendered, hL] <;>
      first
        | exact iff_of_true (by decide) ⟨by decide, by omega⟩
        | exact iff_of_false (by decide) (fun hh => absurd hh.2 (by omega))
  rcases le_or_lt w 32 with h3 | h3
  · have hL := renderGo_le32 w (by omega) h3
    refine ⟨?_, ?_, ?_, ?_, ?_⟩ <;> simp only [rendered, hL] <;>
      first
        | exact iff_of_true (by decide) ⟨by decide, by omega⟩
        | exact iff_of_false (by decide) (fun hh => absurd hh.2 (by omega))
  rcases le_or_lt w 128 with h4 | h4
  · have hL := renderGo_le128 w (by omega) h4
    refine ⟨?_, ?_, ?_, ?_, ?_⟩ <;> simp only [rendered, hL] <;>
      first
        | exact iff_of_true (by decide) ⟨by decide, by omega⟩
        | exact iff_of_false (by decide) (fun hh => absurd hh.2 (by omega))
  rcases le_or_lt w 256 with h5 | h5
  · have hL := renderGo_le256 w (by omega) h5
    refine ⟨?_, ?_, ?_, ?_, ?_⟩ <;> simp only [rendered, hL] <;>
      first
        | exact iff_of_true (by decide) ⟨by decide, by omega⟩
        | exact iff_of_false (by decide) (fun hh => absurd hh.2 (by omega))
  rcases le_or_lt w 512 with h6 | h6
  · have hL := renderGo_le512 w (by omega) h6
    refine ⟨?_, ?_, ?_, ?_, ?_⟩ <;> simp only [rendered, hL] <;>
      first
        | exact iff_of_true (by decide) ⟨by decide, by omega⟩
        | exact iff_of_false (by decide) (fun hh => absurd hh.2 (by omega))
  · have hL := renderGo_gt512 w (by omega)
    refine ⟨?_, ?_, ?_, ?_, ?_⟩ <;> simp only [rendered, hL] <;>
      exact iff_of_true (by decide) ⟨by decide, by omega⟩

/-- C9: with `all_sizes` on, every catalog entry is rendered for every source
image width, and the files written are exactly the 11 catalog names. -/
theorem all_sizes_override (image : Img) (method : String) :
    renderGo image.width true icon_files 0 = icon_files ∧
    (renderFiles image method true).map Prod.fst = icon_files.map IconSpec.name := by
  refine ⟨renderGo_all image.width icon_files 0, ?_⟩
  simp [renderFiles, renderGo_all image.width icon_files 0]

/-- C10: with `all_sizes` off the rendered entries always form a contiguous
initial segment of the catalog: once an entry is skipped, `last_size` never
changes again, so everything afterwards is skipped too. -/
theorem rendered_initial_segment (w : Nat) :
    ∃ n, renderGo w false icon_files 0 = List.take n icon_files := by
  rcases Nat.lt_or_ge w 1 with h0 | h1
  · have hw0 : w = 0 := by omega
    subst hw0
    exact ⟨0, by decide⟩
  · obtain ⟨n, hn⟩ := takeThrough_is_take w icon_files
    exact ⟨n, by rw [renderGo_char w h1, hn]⟩

/-- C5: every file the renderer writes into the staging directory is square
and its dimensions are exactly `size * multiplier` of the catalog entry it is
written under, for every source image, normalization mode, resampling method
name and `all_sizes` setting. -/
theorem rendition_size (src : Img) (keep_aspect crop : Bool) (method : String)
    (all_sizes : Bool) (nm : String) (im : Img)
    (h : (nm, im) ∈ renderFiles (normalizeImage src keep_aspect crop) method all_sizes) :
    im.width = im.height ∧
    ∃ s ∈ icon_files, nm = s.name ∧ im.width = s.size * s.multiplier ∧
      im.height = s.size * s.multiplier := by
  obtain ⟨s, hs, heq⟩ := List.mem_map.mp h
  injection heq with h1 h2
  subst h1
  subst h2
  exact ⟨rfl, s, renderGo_mem _ _ _ _ _ hs, rfl, rfl, rfl⟩

/-- Witness for C5: the 16×16 rendition of an untouched 64×64 source. -/
theorem rendition_size_witness :
    (resize (normalizeImage s64 false false) 16 16 (resize_methods "ANTIALIAS")).width =
      (resize (normalizeImage s64 false false) 16 16 (resize_methods "ANTIALIAS")).height ∧
    ∃ s ∈ icon_files, "icon_16x16.png" = s.name ∧
      (resize (normalizeImage s64 false false) 16 16 (resize_methods "ANTIALIAS")).width =
        s.size * s.multiplier ∧
      (resize (normalizeImage s64 false false) 16 16 (resize_methods "ANTIALIAS")).height =
        s.size * s.multiplier :=
  rendition_size s64 false false "ANTIALIAS" false "icon_16x16.png"
    (resize (normalizeImage s64 false false) 16 16 (resize_methods "ANTIALIAS"))
    (List.Mem.head _)

/-- C6: padding a non-square image yields a `max × max` canvas with the
original pasted at offset `(maxSide - minSide) / 2` (floor) along the shorter
axis and 0 along the other, transparent everywhere outside the pasted
region. -/
theorem pad_invariant (img : Img) (h : img.width ≠ img.height) :
    (padStep img true).width = max img.width img.height ∧
    (padStep img true).height = max img.width img.height ∧
    (∀ x y, padOffX img ≤ x ∧ x < padOffX img + img.width ∧
        padOffY img ≤ y ∧ y < padOffY img + img.height →
      (padStep img true).px x y = img.px (x - padOffX img) (y - padOffY img)) ∧
    (∀ x y, ¬(padOffX img ≤ x ∧ x < padOffX img + img.width ∧
        padOffY img ≤ y ∧ y < padOffY img + img.height) →
      (padStep img true).px x y = transparent) := by
  have hc : img.width ≠ img.height ∧ (true : Bool) = true := ⟨h, rfl⟩
  by_cases hw : img.width > img.height
  · have e : padStep img true =
        paste (newRGBA (max img.width img.height) (max img.width img.height))
          img 0 ((img.width - img.height) / 2) := by
      unfold padStep
      rw [if_pos hc, if_pos hw]
    have ex : padOffX img = 0 := by unfold padOffX; rw [if_pos hw]
    have ey : padOffY img = (img.width - img.height) / 2 := by
      unfold padOffY; rw [if_pos hw]
    rw [e, ex, ey]
    refine ⟨rfl, rfl, ?_, ?_⟩
    · intro x y hxy
      simp only [paste]
      rw [if_pos hxy]
    · intro x y hxy
      simp only [paste]
      rw [if_neg hxy]
      rfl
  · have e : padStep img true =
        paste (newRGBA (max img.width img.height) (max img.width img.height))
          img ((img.height - img.width) / 2) 0 := by
      unfold padStep
      rw [if_pos hc, if_neg hw]
    have ex : padOffX img = (img.height - img.width) / 2 := by
      unfold padOffX; rw [if_neg hw]
    have ey : padOffY img = 0 := by unfold padOffY; rw [if_neg hw]
    rw [e, ex, ey]
    refine ⟨rfl, rfl, ?_, ?_⟩
    · intro x y hxy
      simp only [paste]
      rw [if_pos hxy]
    · intro x y hxy
      simp only [paste]
      rw [if_neg hxy]
      rfl

/-- Witness for C6 on the 1×3 image: side becomes 3, the column lands at
horizontal offset `(3-1)/2 = 1`, and an off-region pixel is transparent. -/
theorem pad_invariant_witness :
    (padStep img13 true).width = 3 ∧
    (padStep img13 true).px 1 2 = img13.px 0 2 ∧
    (padStep img13 true).px 0 0 = transparent := by
  have hp := pad_invariant img13 (by decide)
  refine ⟨hp.1, ?_, ?_⟩
  · exact hp.2.2.1 1 2 (by decide)
  · exact hp.2.2.2 0 0 (by decide)

/-- C7 evaluated at the failing input: cropping the 3×6 image passes the box
`(0, 1.5, 3, 4.5)` to PIL, which rounds half-to-even to `(0, 2, 3, 4)`: the
result is 3 wide but only 2 high (not square) and its top row is source row 2,
while floor arithmetic would give offset `(6-3)/2 = 1` and a 3×3 result. -/
theorem crop_rounding_bug :
    (cropStep img36 true).width = 3 ∧
    (cropStep img36 true).height = 2 ∧
    (cropStep img36 true).px 0 0 = img36.px 0 2 ∧
    (img36.height - img36.width) / 2 = 1 :=
  ⟨rfl, rfl, rfl, rfl⟩

/-- C8: an already-square image passes through the normalizer unchanged,
whatever combination of pad and crop is selected. -/
theorem square_normalize_id (img : Img) (keep_aspect crop : Bool)
    (h : img.width = img.height) :
    normalizeImage img keep_aspect crop = img := by
  simp [normalizeImage, padStep, cropStep, h]

/-- Witness for C8 on a 2×2 image with both modes selected. -/
theorem square_normalize_witness : normalizeImage sq2 true true = sq2 :=
  square_normalize_id sq2 true true rfl

/-- C3 counterexample: with the tool present, failing with exit code 1, and a
file already at the output path, that pre-existing file is gone afterwards —
the script unlinks `options.outfile` before invoking the tool. -/
theorem packaging_failure_cx :
    (packageAndFinish ⟨true, false, 1, true⟩).outfile_after = false := rfl

/-- C3 (amended): when the tool is present, runs, and exits non-zero, the
pipeline returns that exit code unchanged, performs no rename, and no file
exists at the output path afterwards — but a pre-existing file there has
already been deleted before the invocation, so it is not left intact. -/
theorem packaging_failure (env : ToolEnv) (hb : env.binary_is_file = true)
    (hr : env.tool_raises = false) (hc : env.returncode ≠ 0) :
    (packageAndFinish env).ret = env.returncode ∧
    (packageAndFinish env).renamed = false ∧
    (packageAndFinish env).outfile_after = false := by
  simp [packageAndFinish, hb, hr, hc]

/-- Witness for C3's amended theorem: tool present, exit code 1, pre-existing
output file. -/
theorem packaging_failure_witness :
    (packageAndFinish ⟨true, false, 1, true⟩).ret = 1 ∧
    (packageAndFinish ⟨true, false, 1, true⟩).renamed = false ∧
    (packageAndFinish ⟨true, false, 1, true⟩).outfile_after = false :=
  packaging_failure ⟨true, false, 1, true⟩ rfl rfl (by decide)

/-- C4 counterexample: the missing-tool path returns 0 — exactly the result
code of the success path, not a distinct one. -/
theorem missing_tool_cx :
    (packageAndFinish ⟨false, false, 0, false⟩).ret =
      (packageAndFinish ⟨true, false, 0, false⟩).ret := rfl

/-- C4 (amended): when the binary is absent the pipeline skips the
invocation, reports the missing tool, leaves the output path untouched and
returns 0 — the same result code as success, so the condition is reported
only through the printed message. -/
theorem missing_tool (env : ToolEnv) (hb : env.binary_is_file = false) :
    (packageAndFinish env).invoked = false ∧
    (packageAndFinish env).reported_missing = true ∧
    (packageAndFinish env).ret = 0 ∧
    (packageAndFinish env).outfile_after = env.outfile_pre := by
  simp [packageAndFinish, hb]

/-- Witness for C4's amended theorem: absent binary, pre-existing output
file. -/
theorem missing_tool_witness :
    (packageAndFinish ⟨false, false, 7, true⟩).invoked = false ∧
    (packageAndFinish ⟨false, false, 7, true⟩).reported_missing = true ∧
    (packageAndFinish ⟨false, false, 7, true⟩).ret = 0 ∧
    (packageAndFinish ⟨false, false, 7, true⟩).outfile_after = true :=
  missing_tool ⟨false, false, 7, true⟩ rfl
